import Mathlib

/-!
Shallow embedding of `src/lmdbffi/src/lib.rs` (lua-resty-lmdb FFI layer).

The module marshals batched key/value operations between a host that supplies
flat buffers and an LMDB environment.  We model:

* bytes as `Nat`, byte strings as `List Nat`;
* the default database's contents as an ordered association list
  (`Db`), which is also how the read cursor of
  `ngx_lmdb_handle_get_databases` enumerates entries;
* the engine's fallible mutation primitives of `ngx_lmdb_handle_set_multi`
  through an explicit fault schedule (`fault i = true` means the i-th
  `put`/`del` call fails with a hard, non-`NotFound` error), and the
  transaction discipline of the lmdb crate: mutations act on a pending view
  and become visible only at `commit`; a transaction dropped before commit
  aborts and publishes nothing;
* `Write::write_all` on a `&mut [u8]` slice: it copies the prefix that fits
  and fails with `WriteZero` when the value does not fully fit.

Caller-owned output arrays (`value_lens`) are modelled as lists of
`Option Int`: `none` is a slot the routine never wrote (the caller's garbage
survives), `some n` a slot written with `n`.
-/

namespace LmdbFFI

/-- Boundary status codes (lib.rs lines 14-19). -/
inductive ReturnCode where
  | OK
  | ERR
  | AGAIN
deriving DecidableEq, Repr

/-- A byte string crossing the FFI boundary. -/
abbrev Bytes := List Nat

/-- Contents of the default database, in stored (cursor) order.  Keys are
unique; `dbPut`/`dbDel` preserve that. -/
abbrev Db := List (Bytes × Bytes)

/-- `txn.get(db, k)` restricted to the outcomes `Ok(val)` / `Err(NotFound)`
(lib.rs line 107): lookup in the association list. -/
def dbGet (db : Db) (k : Bytes) : Option Bytes :=
  match db with
  | [] => none
  | (k', v') :: rest => if k' = k then some v' else dbGet rest k

/-- `txn.put(db, k, v, empty)` (lib.rs line 163): upsert. -/
def dbPut (db : Db) (k : Bytes) (v : Bytes) : Db :=
  match db with
  | [] => [(k, v)]
  | (k', v') :: rest => if k' = k then (k, v) :: rest else (k', v') :: dbPut rest k v

/-- `txn.del(db, k, None)` with `Err(NotFound)` tolerated (lib.rs lines 155-156):
remove every entry with key `k`; deleting an absent key is a no-op. -/
def dbDel (db : Db) (k : Bytes) : Db :=
  match db with
  | [] => []
  | (k', v') :: rest => if k' = k then dbDel rest k else (k', v') :: dbDel rest k

/-- Per-key bookkeeping of `ngx_lmdb_handle_get_multi`'s loop body: the current
key's status is prepended to the statuses produced by the remaining iterations,
while the return code and buffer of the remaining iterations pass through. -/
def consStatus (s : Option Int) (r : ReturnCode × List (Option Int) × List Nat) :
    ReturnCode × List (Option Int) × List Nat :=
  (r.1, s :: r.2.1, r.2.2)

/-- Loop of `ngx_lmdb_handle_get_multi` (lib.rs lines 105-126) over the resolved
keys.  `cap` is the remaining capacity of `values_buf`, `written` the bytes
already written to it.  Per key: if found, `value_lens[i]` is set to the true
value length (line 109) and the value is appended via `write_all`; on
`WriteZero` (value does not fit) the prefix that fits is written and the call
returns `AGAIN` at once, leaving the later keys' `value_lens` slots unwritten
(`none`); if absent, `value_lens[i] = -1` (line 119). -/
def getMultiGo (db : Db) : List Bytes → Nat → List Nat → ReturnCode × List (Option Int) × List Nat
  | [], _, written => (ReturnCode.OK, [], written)
  | k :: ks, cap, written =>
    match dbGet db k with
    | some v =>
      if v.length ≤ cap then
        consStatus (some (v.length : Int)) (getMultiGo db ks (cap - v.length) (written ++ v))
      else
        (ReturnCode.AGAIN, some (v.length : Int) :: ks.map (fun _ => none),
          written ++ v.take cap)
    | none => consStatus (some (-1)) (getMultiGo db ks cap written)

/-- lib.rs line 96: `from_raw_parts(key_lens, *key_lens as usize)` — the slice
viewed over the caller's key-length array has `key_lens[0]` entries (the
numeric value stored in the first entry), not `num_keys` entries.  Contrast
`ngx_lmdb_handle_set_multi` (line 143), which views the same kind of array with
`from_raw_parts(key_lens, num_keys)`. -/
def getMultiKeyLensView (keyLens : List Nat) : List Nat :=
  keyLens.take (keyLens.headD 0)

/-- True iff every key-length read `key_lens[i]`, `i < numKeys`, performed by
the loop of `ngx_lmdb_handle_get_multi` (line 106) is within the bounds of the
slice built on line 96. -/
def getMultiKeyLensInBounds (numKeys : Nat) (keyLens : List Nat) : Bool :=
  (List.range numKeys).all (fun i => i < (getMultiKeyLensView keyLens).length)

/-- One record of `ngx_lmdb_handle_set_multi`: key plus either a value or
`none` for a null value pointer, which signals delete (lib.rs line 152). -/
abbrev SetOp := Bytes × Option Bytes

/-- Body of the `set_multi` loop (lib.rs lines 148-171) acting on the write
transaction's pending view: null value pointer deletes (absence tolerated),
otherwise upsert. -/
def applySetOp (pending : Db) (op : SetOp) : Db :=
  match op.2 with
  | none => dbDel pending op.1
  | some v => dbPut pending op.1 v

/-- The `set_multi` loop with an engine fault schedule: `fault i = true` means
the engine call of the i-th record fails with a hard (non-`NotFound`) error, at
which point the loop returns `ERR` (lib.rs lines 157-159 / 165-167) and the
transaction is dropped uncommitted.  `none` models that early-`ERR` exit. -/
def setMultiGo (fault : Nat → Bool) : List SetOp → Nat → Db → Option Db
  | [], _, pending => some pending
  | op :: rest, i, pending =>
    if fault i then none
    else setMultiGo fault rest (i + 1) (applySetOp pending op)

/-- `ngx_lmdb_handle_set_multi` (lib.rs lines 134-175): begin a rw transaction
whose pending view starts at the committed store `db`, run the loop, then
`txn.commit()` (line 173, may itself fail: `commitFault`).  The second
component of the result is the committed store visible afterwards: an aborted
transaction publishes nothing. -/
def ngx_lmdb_handle_set_multi (db : Db) (ops : List SetOp) (fault : Nat → Bool)
    (commitFault : Bool) : ReturnCode × Db :=
  match setMultiGo fault ops 0 db with
  | none => (ReturnCode.ERR, db)
  | some pending =>
    if commitFault then (ReturnCode.ERR, db) else (ReturnCode.OK, pending)

/-- Where the read transaction of `ngx_lmdb_handle_get_multi` /
`ngx_lmdb_handle_get_databases` came from. -/
inductive TxnSource where
  | fresh
  | renewed
  | err
deriving DecidableEq, Repr

/-- Transaction acquisition step shared by the two read calls (lib.rs lines
100-103 and 228-231): `handle.inactive_txn.take()` empties the suspended slot;
if a suspended transaction was present it is renewed, and a renewal error makes
the call return `ERR` via `try_lmdb!`; otherwise a fresh read-only transaction
is begun (`begin_ro_txn`, also fallible).  The second component is the
suspended slot's occupancy right after this step: always empty, also on the
`ERR` paths, which return without restoring anything. -/
def acquireReadTxn (slotOccupied renewFails beginFails : Bool) : TxnSource × Bool :=
  if slotOccupied then
    (if renewFails then (TxnSource.err, false) else (TxnSource.renewed, false))
  else
    (if beginFails then (TxnSource.err, false) else (TxnSource.fresh, false))

/-- Loop of `ngx_lmdb_handle_get_databases` (lib.rs lines 234-249): the cursor
enumerates the `numKeys`-sized caller array `lens` is indexed by the unbounded
enumeration counter `i`; the write `value_lens[i] = key.len()` (line 236)
happens before the buffer-space check, and `i < numKeys` is nowhere enforced —
an iteration with `i ≥ numKeys` indexes past the slice and panics, modelled as
`none`.  On `WriteZero` the call returns `AGAIN` immediately (line 239); only
the completed enumeration reaches `handle.inactive_txn = Some(txn.reset())`
(line 248).  The final `Bool` is the suspended slot's occupancy at return. -/
def getDatabasesGo (numKeys : Nat) :
    List (Bytes × Bytes) → Nat → Nat → List (Option Int) → List Nat →
    Option (ReturnCode × List (Option Int) × List Nat × Bool)
  | [], _, _, lens, written => some (ReturnCode.OK, lens, written, true)
  | (key, _) :: rest, i, cap, lens, written =>
    if i < numKeys then
      if key.length ≤ cap then
        getDatabasesGo numKeys rest (i + 1) (cap - key.length)
          (lens.set i (some (key.length : Int))) (written ++ key)
      else
        some (ReturnCode.AGAIN, lens.set i (some (key.length : Int)),
          written ++ key.take cap, false)
    else
      none

/-- `ngx_lmdb_handle_get_databases` (lib.rs lines 219-250) given the default
database's contents in cursor order, the caller's `num_keys` and
`values_buf_len`.  The suspended slot was emptied by `take()` before the loop;
the returned `Bool` says whether it is occupied again when the call returns. -/
def ngx_lmdb_handle_get_databases (numKeys : Nat) (db : Db) (cap : Nat) :
    Option (ReturnCode × List (Option Int) × List Nat × Bool) :=
  getDatabasesGo numKeys db 0 cap (List.replicate numKeys none) []

/-- Name-to-identifier map lookup, used both for `handle.databases.get(name)`
(the `HashMap` cache) and for the engine's lookup of a named sub-database. -/
def cacheLookup : List (String × Nat) → String → Option Nat
  | [], _ => none
  | (n, d) :: rest, name => if n = name then some d else cacheLookup rest name

/-- The LMDB environment as the database-handle claims need it: the named
sub-databases it knows, each with its stable `MDB_dbi` identifier, plus a
supply of fresh identifiers. -/
structure Env where
  dbs : List (String × Nat)
  next : Nat
deriving DecidableEq, Repr

/-- `env.open_db(Some(name))`: identifier of an existing sub-database, or
`NotFound`. -/
def envOpenDb (e : Env) (name : String) : Option Nat :=
  cacheLookup e.dbs name

/-- `env.create_db(Some(name), empty)`: returns the existing identifier when
the sub-database already exists (LMDB's `mdb_dbi_open` with `MDB_CREATE` is
idempotent), otherwise allocates a fresh one. -/
def envCreateDb (e : Env) (name : String) : Nat × Env :=
  match envOpenDb e name with
  | some d => (d, e)
  | none => (e.next, ⟨e.dbs ++ [(name, e.next)], e.next + 1⟩)

/-- The parts of `LMDBHandle` (lib.rs lines 33-39) the database-handle claims
depend on: the environment and the `databases` name cache. -/
structure Handle where
  env : Env
  databases : List (String × Nat)
deriving DecidableEq, Repr

/-- `get_database_handle` (lib.rs lines 252-269): consult the cache first; on a
miss, create or open through the environment and insert the result into the
cache.  `none` is the `Err` of the open-existing path (`NotFound`). -/
def get_database_handle (h : Handle) (name : String) (create : Bool) :
    Option (Nat × Handle) :=
  match cacheLookup h.databases name with
  | some d => some (d, h)
  | none =>
    if create then
      some ((envCreateDb h.env name).1,
        ⟨(envCreateDb h.env name).2, h.databases ++ [(name, (envCreateDb h.env name).1)]⟩)
    else
      match envOpenDb h.env name with
      | some d => some (d, ⟨h.env, h.databases ++ [(name, d)]⟩)
      | none => none

/-- `ngx_lmdb_handle_create_database` (lib.rs lines 192-200):
`get_database_handle(handle, name, true)` reduced to a status code. -/
def ngx_lmdb_handle_create_database (h : Handle) (name : String) :
    ReturnCode × Handle :=
  match get_database_handle h name true with
  | some (_, h') => (ReturnCode.OK, h')
  | none => (ReturnCode.ERR, h)

/-! ### Helper lemmas -/

theorem dbGet_dbPut_self (db : Db) (k v : Bytes) : dbGet (dbPut db k v) k = some v := by
  induction db with
  | nil => simp [dbPut, dbGet]
  | cons e rest ih =>
    obtain ⟨k', v'⟩ := e
    by_cases h : k' = k
    · simp [dbPut, dbGet, h]
    · simp [dbPut, dbGet, h, ih]

theorem dbGet_dbDel_self (db : Db) (k : Bytes) : dbGet (dbDel db k) k = none := by
  induction db with
  | nil => simp [dbDel, dbGet]
  | cons e rest ih =>
    obtain ⟨k', v'⟩ := e
    by_cases h : k' = k
    · simp [dbDel, h, ih]
    · simp [dbDel, dbGet, h, ih]

theorem getMultiGo_cons_not_found (db : Db) (k : Bytes) (ks : List Bytes)
    (cap : Nat) (written : List Nat) (hkv : dbGet db k = none) :
    getMultiGo db (k :: ks) cap written
      = consStatus (some (-1)) (getMultiGo db ks cap written) := by
  simp [getMultiGo, hkv]

theorem getMultiGo_cons_found_fits (db : Db) (k v : Bytes) (ks : List Bytes)
    (cap : Nat) (written : List Nat) (hkv : dbGet db k = some v)
    (hc : v.length ≤ cap) :
    getMultiGo db (k :: ks) cap written
      = consStatus (some (v.length : Int))
          (getMultiGo db ks (cap - v.length) (written ++ v)) := by
  simp [getMultiGo, hkv, hc]

theorem getMultiGo_cons_found_nofit (db : Db) (k v : Bytes) (ks : List Bytes)
    (cap : Nat) (written : List Nat) (hkv : dbGet db k = some v)
    (hc : ¬ v.length ≤ cap) :
    getMultiGo db (k :: ks) cap written
      = (ReturnCode.AGAIN, some (v.length : Int) :: ks.map (fun _ => none),
          written ++ v.take cap) := by
  simp [getMultiGo, hkv, hc]

theorem getD_map_none {α : Type} (l : List α) :
    ∀ n, n < l.length →
      (l.map (fun _ => (none : Option Int))).getD n (some 0) = none := by
  induction l with
  | nil => intro n hn; simp at hn
  | cons a l ih =>
    intro n hn
    match n with
    | 0 => simp
    | n' + 1 =>
      simp only [List.map_cons, List.getD_cons_succ]
      exact ih n' (by simpa using hn)

theorem setMultiGo_eq_none_of_fault (fault : Nat → Bool) :
    ∀ (ops : List SetOp) (i0 : Nat) (pending : Db),
      (∃ j, j < ops.length ∧ fault (i0 + j) = true) →
      setMultiGo fault ops i0 pending = none := by
  intro ops
  induction ops with
  | nil =>
    intro i0 pending h
    obtain ⟨j, hj, _⟩ := h
    simp at hj
  | cons op rest ih =>
    intro i0 pending h
    by_cases hf : fault i0 = true
    · simp [setMultiGo, hf]
    · obtain ⟨j, hj, hfj⟩ := h
      match j with
      | 0 => exact absurd (by simpa using hfj) hf
      | j' + 1 =>
        have hshift : fault ((i0 + 1) + j') = true := by
          have he : i0 + (j' + 1) = (i0 + 1) + j' := by omega
          rwa [he] at hfj
        simp only [setMultiGo, if_neg hf]
        exact ih (i0 + 1) (applySetOp pending op)
          ⟨j', by simpa using Nat.lt_of_succ_lt_succ hj, hshift⟩

theorem getDatabasesGo_suspend_flag (numKeys : Nat) :
    ∀ (db : Db) (i cap : Nat) (lens : List (Option Int)) (written : List Nat)
      (r : ReturnCode × List (Option Int) × List Nat × Bool),
      getDatabasesGo numKeys db i cap lens written = some r →
      (r.1 = ReturnCode.AGAIN → r.2.2.2 = false) ∧
      (r.1 = ReturnCode.OK → r.2.2.2 = true) := by
  intro db
  induction db with
  | nil =>
    intro i cap lens written r h
    simp only [getDatabasesGo, Option.some.injEq] at h
    subst h
    refine ⟨fun ha => ?_, fun _ => rfl⟩
    cases ha
  | cons e rest ih =>
    obtain ⟨key, v⟩ := e
    intro i cap lens written r h
    simp only [getDatabasesGo] at h
    by_cases hi : i < numKeys
    · rw [if_pos hi] at h
      by_cases hc : key.length ≤ cap
      · rw [if_pos hc] at h
        exact ih (i + 1) (cap - key.length) (lens.set i (some (key.length : Int)))
          (written ++ key) r h
      · rw [if_neg hc] at h
        simp only [Option.some.injEq] at h
        subst h
        exact ⟨fun _ => rfl, fun ho => by cases ho⟩
    · rw [if_neg hi] at h
      cases h

theorem cacheLookup_append_of_none (l : List (String × Nat)) (name : String) (d : Nat)
    (h : cacheLookup l name = none) :
    cacheLookup (l ++ [(name, d)]) name = some d := by
  induction l with
  | nil => simp [cacheLookup]
  | cons e rest ih =>
    obtain ⟨n, d'⟩ := e
    by_cases hn : n = name
    · simp [cacheLookup, hn] at h
    · simp only [List.cons_append, cacheLookup, if_neg hn] at h ⊢
      exact ih h

theorem cacheLookup_after_resolve (h : Handle) (name : String) (create : Bool)
    (d : Nat) (h' : Handle)
    (hres : get_database_handle h name create = some (d, h')) :
    cacheLookup h'.databases name = some d := by
  unfold get_database_handle at hres
  cases hcache : cacheLookup h.databases name with
  | some d0 =>
    rw [hcache] at hres
    simp only [Option.some.injEq, Prod.mk.injEq] at hres
    obtain ⟨hd, hh⟩ := hres
    rw [← hh, ← hd]
    exact hcache
  | none =>
    rw [hcache] at hres
    by_cases hcr : create
    · rw [if_pos hcr] at hres
      simp only [Option.some.injEq, Prod.mk.injEq] at hres
      obtain ⟨hd, hh⟩ := hres
      rw [← hh]
      simp only []
      rw [← hd]
      exact cacheLookup_append_of_none h.databases name _ hcache
    · rw [if_neg hcr] at hres
      cases hopen : envOpenDb h.env name with
      | some d0 =>
        rw [hopen] at hres
        simp only [Option.some.injEq, Prod.mk.injEq] at hres
        obtain ⟨hd, hh⟩ := hres
        rw [← hh]
        simp only []
        rw [← hd]
        exact cacheLookup_append_of_none h.databases name d0 hcache
      | none =>
        rw [hopen] at hres
        cases hres

theorem resolve_again_helper (h : Handle) (name : String) (create : Bool)
    (d : Nat) (h' : Handle)
    (hres : get_database_handle h name create = some (d, h')) :
    get_database_handle h' name create = some (d, h') := by
  have hc := cacheLookup_after_resolve h name create d h' hres
  unfold get_database_handle
  rw [hc]

theorem get_database_handle_create_isSome (h : Handle) (name : String) :
    ∃ d h', get_database_handle h name true = some (d, h') := by
  unfold get_database_handle
  cases hcache : cacheLookup h.databases name <;> simp

theorem create_database_ok_helper (h : Handle) (name : String) :
    (ngx_lmdb_handle_create_database h name).1 = ReturnCode.OK := by
  obtain ⟨d, h', hres⟩ := get_database_handle_create_isSome h name
  unfold ngx_lmdb_handle_create_database
  rw [hres]

theorem create_database_idem_helper (h : Handle) (name : String) :
    ngx_lmdb_handle_create_database (ngx_lmdb_handle_create_database h name).2 name
      = (ReturnCode.OK, (ngx_lmdb_handle_create_database h name).2) := by
  obtain ⟨d, h', hres⟩ := get_database_handle_create_isSome h name
  have hsecond := resolve_again_helper h name true d h' hres
  have hfst : (ngx_lmdb_handle_create_database h name).2 = h' := by
    unfold ngx_lmdb_handle_create_database
    rw [hres]
  rw [hfst]
  unfold ngx_lmdb_handle_create_database
  rw [hsecond]

/-! ### Claim theorems -/

/-- Claim C1 (code bug).  `ngx_lmdb_handle_get_multi` is called with
`num_keys = 2` and a key-length array whose entries are `[1, 3]`.  The claim
says every read `key_lens[i]`, `i < num_keys`, is in bounds regardless of the
value stored in the first entry; but line 96 sizes the slice by that very value
(`*key_lens as usize = 1`), so the loop's read of `key_lens[1]` is out of the
view's bounds (a panic in Rust).  The intended size is `num_keys`, as
`ngx_lmdb_handle_set_multi` line 143 uses for the same array. -/
theorem get_multi_key_lens_read_out_of_bounds :
    getMultiKeyLensInBounds 2 [1, 3] = false ∧
    (getMultiKeyLensView [1, 3]).length = 1 := by decide

/-- Claim C10 (code bug).  `ngx_lmdb_handle_get_databases` with `num_keys = 1`
and a default database holding two entries, with ample buffer space
(`values_buf_len = 10`): the cursor's second iteration executes
`value_lens[1] = key.len()` (line 236), indexing past the 1-entry
`value_lens` slice — `none` is the modelled panic/out-of-bounds write. -/
theorem get_databases_value_lens_write_out_of_bounds :
    ngx_lmdb_handle_get_databases 1 [([7], [1]), ([8], [2])] 10 = none := by decide

/-- Claim C4, counterexample.  A read call that finds a suspended transaction
(`slotOccupied = true`) whose renewal fails (`renewFails = true`) returns `ERR`
(`try_lmdb!` at lib.rs line 102); it does not fall back to beginning a fresh
read-only transaction as the claim states. -/
theorem renew_failure_no_fallback_counterexample :
    (acquireReadTxn true true false).1 = TxnSource.err ∧
    (acquireReadTxn true true false).1 ≠ TxnSource.fresh := by decide

/-- Claim C4, amended.  When the suspended transaction's renewal fails, the
call returns `ERR` within that call (no local fallback), and the suspended
slot — already emptied by `take()` — stays empty, so the next read call begins
a fresh read-only transaction. -/
theorem renew_failure_returns_err_next_call_fresh :
    acquireReadTxn true true false = (TxnSource.err, false) ∧
    acquireReadTxn true true true = (TxnSource.err, false) ∧
    acquireReadTxn false false false = (TxnSource.fresh, false) := by
  exact ⟨rfl, rfl, rfl⟩

/-- Claim C5.  If any record of a `set_multi` batch fails with a hard
(non-`NotFound`) engine error, the call returns `ERR` and the committed store
is unchanged: the mutations applied before the failure were only in the
uncommitted transaction, which is dropped (lib.rs lines 157-159, 165-167), so
none of them become visible. -/
theorem set_multi_hard_error_leaves_store_unchanged (db : Db) (ops : List SetOp)
    (fault : Nat → Bool) (commitFault : Bool)
    (h : ∃ j, j < ops.length ∧ fault j = true) :
    ngx_lmdb_handle_set_multi db ops fault commitFault = (ReturnCode.ERR, db) := by
  have hnone : setMultiGo fault ops 0 db = none := by
    apply setMultiGo_eq_none_of_fault
    obtain ⟨j, hj, hfj⟩ := h
    exact ⟨j, hj, by simpa using hfj⟩
  simp [ngx_lmdb_handle_set_multi, hnone]

/-- Witness for C5: an empty store, a two-record batch whose second record
hard-fails; the call returns `ERR` and the store stays empty. -/
theorem set_multi_hard_error_witness :
    ngx_lmdb_handle_set_multi [] [([1], some [2]), ([3], some [4])]
      (fun i => decide (i = 1)) false = (ReturnCode.ERR, []) :=
  set_multi_hard_error_leaves_store_unchanged [] [([1], some [2]), ([3], some [4])]
    (fun i => decide (i = 1)) false ⟨1, by decide, by decide⟩

/-- Claim C6.  For any key `k` and value `v` with `v.length` within the output
buffer's capacity, a fault-free `set_multi` storing `(k, v)` followed by a
`get_multi` of `k` succeeds: overall `OK`, the per-key length field holds
exactly `v.length` (neither the `-1` not-found marker nor an `AGAIN` exit), and
the output buffer holds `v` exactly. -/
theorem set_then_get_roundtrip (db : Db) (k v : Bytes) (cap : Nat)
    (h : v.length ≤ cap) :
    (ngx_lmdb_handle_set_multi db [(k, some v)] (fun _ => false) false).1
      = ReturnCode.OK ∧
    getMultiGo (ngx_lmdb_handle_set_multi db [(k, some v)] (fun _ => false) false).2
      [k] cap []
      = (ReturnCode.OK, [some (v.length : Int)], v) := by
  have hset : ngx_lmdb_handle_set_multi db [(k, some v)] (fun _ => false) false
      = (ReturnCode.OK, dbPut db k v) := by
    simp [ngx_lmdb_handle_set_multi, setMultiGo, applySetOp]
  rw [hset]
  refine ⟨rfl, ?_⟩
  rw [getMultiGo_cons_found_fits (dbPut db k v) k v [] cap [] (dbGet_dbPut_self db k v) h]
  simp [consStatus, getMultiGo]

/-- Witness for C6: store `[5, 6]` under key `[1]` in an empty store, read it
back with a 2-byte buffer. -/
theorem set_then_get_roundtrip_witness :
    (ngx_lmdb_handle_set_multi [] [([1], some [5, 6])] (fun _ => false) false).1
      = ReturnCode.OK ∧
    getMultiGo (ngx_lmdb_handle_set_multi [] [([1], some [5, 6])] (fun _ => false) false).2
      [[1]] 2 []
      = (ReturnCode.OK, [some (2 : Int)], [5, 6]) :=
  set_then_get_roundtrip [] [1] [5, 6] 2 (by decide)

/-- Claim C7.  A `set_multi` record with a null value pointer deletes the key:
for any store (in particular one where the key is absent) the batch returns
`OK` — `Err(NotFound)` from `del` is tolerated (lib.rs line 156) — the key is
absent afterwards, and a subsequent `get_multi` of the key reports not-found
through a per-key length of `-1` (lib.rs line 119). -/
theorem set_null_deletes_and_get_reports_not_found (db : Db) (k : Bytes) (cap : Nat) :
    (ngx_lmdb_handle_set_multi db [(k, none)] (fun _ => false) false).1
      = ReturnCode.OK ∧
    dbGet (ngx_lmdb_handle_set_multi db [(k, none)] (fun _ => false) false).2 k
      = none ∧
    getMultiGo (ngx_lmdb_handle_set_multi db [(k, none)] (fun _ => false) false).2
      [k] cap []
      = (ReturnCode.OK, [some (-1)], []) := by
  have hset : ngx_lmdb_handle_set_multi db [(k, none)] (fun _ => false) false
      = (ReturnCode.OK, dbDel db k) := by
    simp [ngx_lmdb_handle_set_multi, setMultiGo, applySetOp]
  rw [hset]
  refine ⟨rfl, dbGet_dbDel_self db k, ?_⟩
  rw [getMultiGo_cons_not_found (dbDel db k) k [] cap [] (dbGet_dbDel_self db k)]
  simp [consStatus, getMultiGo]

/-- Claim C8.  A `get_multi` of a present key whose value is longer than the
remaining output buffer returns `AGAIN` with the per-key length field set to
the true stored length (set on lib.rs line 109, before `write_all` fails with
`WriteZero`), and the same call with a buffer of at least that length
succeeds with the full value. -/
theorem get_buffer_exhaustion_reports_true_length (db : Db) (k v : Bytes)
    (cap cap2 : Nat) (hv : dbGet db k = some v) (hsmall : cap < v.length)
    (hbig : v.length ≤ cap2) :
    getMultiGo db [k] cap []
      = (ReturnCode.AGAIN, [some (v.length : Int)], v.take cap) ∧
    getMultiGo db [k] cap2 []
      = (ReturnCode.OK, [some (v.length : Int)], v) := by
  constructor
  · rw [getMultiGo_cons_found_nofit db k v [] cap [] hv (Nat.not_le.mpr hsmall)]
    simp
  · rw [getMultiGo_cons_found_fits db k v [] cap2 [] hv hbig]
    simp [consStatus, getMultiGo]

/-- Witness for C8: key `[1]` holds `[5, 6]`; a 1-byte buffer yields `AGAIN`
with reported length 2; a 2-byte retry succeeds. -/
theorem get_buffer_exhaustion_witness :
    getMultiGo [([1], [5, 6])] [[1]] 1 []
      = (ReturnCode.AGAIN, [some (2 : Int)], [5]) ∧
    getMultiGo [([1], [5, 6])] [[1]] 2 []
      = (ReturnCode.OK, [some (2 : Int)], [5, 6]) :=
  get_buffer_exhaustion_reports_true_length [([1], [5, 6])] [1] [5, 6] 1 2
    (by decide) (by decide) (by decide)

/-- Claim C2, counterexample.  `num_keys = 2`, key `[1]` holds a 5-byte value,
`values_buf_len = 3`: the first key exhausts the buffer and the loop returns
`AGAIN` at once (lib.rs line 112), so the second key's `value_lens` slot is
never written (`none` = caller garbage survives) — refuting that a per-key
status (found length or `-1`) is recorded for every one of the `num_keys`
keys. -/
theorem get_multi_again_skips_later_statuses_counterexample :
    getMultiGo [([1], [9, 9, 9, 9, 9])] [[1], [2]] 3 []
      = (ReturnCode.AGAIN, [some 5, none], [9, 9, 9]) := by decide

/-- Claim C2, amended.  When a `get_multi` batch returns `AGAIN` there is an
index `i` (the key at which the buffer was exhausted) such that every key up to
and including `i` has a recorded per-key status (found length or `-1`), while
the statuses of all later keys are left unwritten; no further value records are
written past that key. -/
theorem get_multi_again_statuses (db : Db) :
    ∀ (keys : List Bytes) (cap : Nat) (written : List Nat),
      (getMultiGo db keys cap written).1 = ReturnCode.AGAIN →
      ∃ i, i < keys.length ∧
        (∀ j, j ≤ i →
          ((getMultiGo db keys cap written).2.1.getD j none).isSome = true) ∧
        (∀ j, i < j → j < keys.length →
          (getMultiGo db keys cap written).2.1.getD j (some 0) = none) := by
  intro keys
  induction keys with
  | nil =>
    intro cap written h
    simp [getMultiGo] at h
  | cons k ks ih =>
    intro cap written h
    rcases hkv : dbGet db k with _ | v
    · rw [getMultiGo_cons_not_found db k ks cap written hkv] at h ⊢
      simp only [consStatus] at h ⊢
      obtain ⟨i, hi, hs, hn⟩ := ih cap written h
      refine ⟨i + 1, by simpa using Nat.succ_lt_succ hi, ?_, ?_⟩
      · intro j hj
        match j with
        | 0 => simp
        | j' + 1 =>
          simp only [List.getD_cons_succ]
          exact hs j' (Nat.le_of_succ_le_succ hj)
      · intro j hij hjlen
        match j with
        | j' + 1 =>
          simp only [List.getD_cons_succ]
          exact hn j' (Nat.lt_of_succ_lt_succ hij) (by simpa using hjlen)
    · by_cases hc : v.length ≤ cap
      · rw [getMultiGo_cons_found_fits db k v ks cap written hkv hc] at h ⊢
        simp only [consStatus] at h ⊢
        obtain ⟨i, hi, hs, hn⟩ := ih (cap - v.length) (written ++ v) h
        refine ⟨i + 1, by simpa using Nat.succ_lt_succ hi, ?_, ?_⟩
        · intro j hj
          match j with
          | 0 => simp
          | j' + 1 =>
            simp only [List.getD_cons_succ]
            exact hs j' (Nat.le_of_succ_le_succ hj)
        · intro j hij hjlen
          match j with
          | j' + 1 =>
            simp only [List.getD_cons_succ]
            exact hn j' (Nat.lt_of_succ_lt_succ hij) (by simpa using hjlen)
      · rw [getMultiGo_cons_found_nofit db k v ks cap written hkv hc]
        refine ⟨0, by simp, ?_, ?_⟩
        · intro j hj
          have hj0 : j = 0 := Nat.le_zero.mp hj
          subst hj0
          simp
        · intro j hij hjlen
          match j with
          | j' + 1 =>
            simp only [List.getD_cons_succ]
            exact getD_map_none ks j' (by simpa using hjlen)

/-- Witness for C2's amended theorem at the counterexample input: `num_keys =
2`, first value (5 bytes) exceeds the 3-byte buffer. -/
theorem get_multi_again_statuses_witness :
    ∃ i, i < ([[1], [2]] : List Bytes).length ∧
      (∀ j, j ≤ i →
        ((getMultiGo [([1], [9, 9, 9, 9, 9])] [[1], [2]] 3 []).2.1.getD j
          none).isSome = true) ∧
      (∀ j, i < j → j < ([[1], [2]] : List Bytes).length →
        (getMultiGo [([1], [9, 9, 9, 9, 9])] [[1], [2]] 3 []).2.1.getD j
          (some 0) = none) :=
  get_multi_again_statuses [([1], [9, 9, 9, 9, 9])] [[1], [2]] 3 [] (by decide)

/-- Claim C3, counterexample.  `ngx_lmdb_handle_get_databases` with `num_keys
= 2`, one stored 3-byte key and a 1-byte buffer returns `AGAIN` (lib.rs line
239) with the suspended-transaction slot empty (final component `false`): the
early return skips `handle.inactive_txn = Some(txn.reset())` (line 248), so
the read transaction is dropped, not preserved. -/
theorem get_databases_again_drops_txn_counterexample :
    ngx_lmdb_handle_get_databases 2 [([7, 7, 7], [])] 1
      = some (ReturnCode.AGAIN, [some 3, none], [7], false) := by decide

/-- Claim C3, amended.  When `ngx_lmdb_handle_get_databases` returns `AGAIN`
(buffer filled before the cursor was exhausted), the suspended-transaction
slot — emptied by `take()` at call start — is left empty: the transaction is
dropped, and a retry begins a fresh transaction on a possibly different
snapshot.  Only a completed enumeration (`OK`) re-suspends the transaction. -/
theorem get_databases_again_leaves_slot_empty (numKeys : Nat) (db : Db) (cap : Nat)
    (r : ReturnCode × List (Option Int) × List Nat × Bool)
    (h : ngx_lmdb_handle_get_databases numKeys db cap = some r) :
    (r.1 = ReturnCode.AGAIN → r.2.2.2 = false) ∧
    (r.1 = ReturnCode.OK → r.2.2.2 = true) := by
  unfold ngx_lmdb_handle_get_databases at h
  exact getDatabasesGo_suspend_flag numKeys db 0 cap (List.replicate numKeys none) [] r h

/-- Witness for C3's amended theorem at the counterexample input. -/
theorem get_databases_again_leaves_slot_empty_witness :
    (((ReturnCode.AGAIN, [some 3, none], [7], false) :
        ReturnCode × List (Option Int) × List Nat × Bool).1 = ReturnCode.AGAIN →
      ((ReturnCode.AGAIN, [some 3, none], [7], false) :
        ReturnCode × List (Option Int) × List Nat × Bool).2.2.2 = false) ∧
    (((ReturnCode.AGAIN, [some 3, none], [7], false) :
        ReturnCode × List (Option Int) × List Nat × Bool).1 = ReturnCode.OK →
      ((ReturnCode.AGAIN, [some 3, none], [7], false) :
        ReturnCode × List (Option Int) × List Nat × Bool).2.2.2 = true) :=
  get_databases_again_leaves_slot_empty 2 [([7, 7, 7], [])] 1
    (ReturnCode.AGAIN, [some 3, none], [7], false) (by decide)

/-- Claim C9.  If resolving `name` through `get_database_handle` yields
identifier `d` and handle state `h'`, resolving `name` again on `h'` yields
the same identifier `d` with the state unchanged (the second resolution hits
the `databases` cache, lib.rs line 258); and `ngx_lmdb_handle_create_database`
called twice with the same name succeeds both times, the second call changing
nothing. -/
theorem database_resolution_idempotent (h : Handle) (name : String) (create : Bool)
    (d : Nat) (h' : Handle)
    (hres : get_database_handle h name create = some (d, h')) :
    get_database_handle h' name create = some (d, h') ∧
    (ngx_lmdb_handle_create_database h name).1 = ReturnCode.OK ∧
    ngx_lmdb_handle_create_database (ngx_lmdb_handle_create_database h name).2 name
      = (ReturnCode.OK, (ngx_lmdb_handle_create_database h name).2) :=
  ⟨resolve_again_helper h name create d h' hres,
    create_database_ok_helper h name,
    create_database_idem_helper h name⟩

/-- Witness for C9: a fresh handle (empty environment, empty cache) resolving
and creating the database `"users"`. -/
theorem database_resolution_idempotent_witness :
    get_database_handle ⟨⟨[("users", 0)], 1⟩, [("users", 0)]⟩ "users" true
      = some (0, ⟨⟨[("users", 0)], 1⟩, [("users", 0)]⟩) ∧
    (ngx_lmdb_handle_create_database ⟨⟨[], 0⟩, []⟩ "users").1 = ReturnCode.OK ∧
    ngx_lmdb_handle_create_database
        (ngx_lmdb_handle_create_database ⟨⟨[], 0⟩, []⟩ "users").2 "users"
      = (ReturnCode.OK, (ngx_lmdb_handle_create_database ⟨⟨[], 0⟩, []⟩ "users").2) :=
  database_resolution_idempotent ⟨⟨[], 0⟩, []⟩ "users" true 0
    ⟨⟨[("users", 0)], 1⟩, [("users", 0)]⟩ (by decide)

end LmdbFFI
